import Mathlib

/-!
Shallow embedding of `src/public/scripts/plugins/raml-client-generator/index.js`:
the API facade exposed into the notebook's execution sandbox
(`createClient`, `set`, `get`, `unset`, `authenticate`) together with the
custom RAML file reader (`createReader`).

JavaScript values stored in a client's `!config` object are modelled by
`JsVal`; a JS object is modelled as an ordered association list of
string keys (`assignKey` replaces an existing key in place, otherwise
appends, exactly like JS property assignment; `removeKey` models
`delete`; `lookupKey` models property lookup, with `JsVal.undefined`
for a missing key).
-/

/-- A JavaScript value, as far as the facade's config store needs them. -/
inductive JsVal where
  | undefined
  | str (s : String)
  | num (n : Int)
  | fn
deriving DecidableEq, Repr

/-- A JavaScript `Error` carries a message string. -/
structure JsError where
  message : String
deriving DecidableEq, Repr

/-- The contents of a JS object with string keys: ordered key/value pairs. -/
abbrev JsObject (α : Type) := List (String × α)

/-- The contents of a client's `!config` object. -/
abbrev Config := JsObject JsVal

/-- JS property assignment `obj[k] = v`: replace the existing entry for `k`
in place, otherwise append a new entry at the end. -/
def assignKey {α : Type} : JsObject α → String → α → JsObject α
  | [], k, v => [(k, v)]
  | p :: rest, k, v =>
    if p.1 = k then (k, v) :: rest else p :: assignKey rest k v

/-- JS property lookup `obj[k]`, as an `Option`. -/
def lookupKey {α : Type} : JsObject α → String → Option α
  | [], _ => none
  | p :: rest, k => if p.1 = k then some p.2 else lookupKey rest k

/-- JS `delete obj[k]`: drop the entry for `k`. -/
def removeKey {α : Type} : JsObject α → String → JsObject α
  | [], _ => []
  | p :: rest, k =>
    if p.1 = k then removeKey rest k else p :: removeKey rest k

/-- JS property read `obj[k]`: `undefined` when the key is missing. -/
def getKey (cfg : Config) (k : String) : JsVal :=
  (lookupKey cfg k).getD .undefined

/-- Underscore's `_.extend(dst, src)`: assign every key of `src` onto `dst`,
in order. -/
def extendCfg {α : Type} (dst src : JsObject α) : JsObject α :=
  src.foldl (fun acc p => assignKey acc p.1 p.2) dst

namespace API

/-- `API.set(client, key, value)` (three-argument form, index.js line 139):
`client['!config'][key] = value`.  Returns the updated config contents. -/
def set (cfg : Config) (key : String) (value : JsVal) : Config :=
  assignKey cfg key value

/-- `API.set(client, config)` (two-argument form, index.js line 136):
`_.extend(client['!config'], key)`. -/
def setBulk (cfg : Config) (m : Config) : Config :=
  extendCfg cfg m

/-- `API.get(client, key)` (index.js line 162): `client['!config'][key]`. -/
def get (cfg : Config) (key : String) : JsVal :=
  getKey cfg key

/-- `API.get(client)` (one-argument form, index.js line 159): returns the
`!config` object itself.  At the level of contents this is the identity;
the reference semantics is captured by the heap-level `getAllRef` below. -/
def getAll (cfg : Config) : Config :=
  cfg

/-- `API.unset(client, key)` (index.js line 189): `delete client['!config'][key]`.
`delete` on a configurable (here: any user-set) property returns `true`,
whether or not the property existed. -/
def unset (cfg : Config) (key : String) : Bool × Config :=
  (true, removeKey cfg key)

/-- `API.unset(client)` (one-argument form, index.js lines 182-186):
`_.each(client['!config'], function (value, key, obj) { delete obj[key]; })`
followed by `return true`.  Underscore's `_.each` walks a snapshot of the
object's own keys and the callback deletes each one from the live object,
so the iteration is a fold of `removeKey` over the config's key list. -/
def unsetAll (cfg : Config) : Bool × Config :=
  (true, List.foldl removeKey cfg (cfg.map Prod.fst))

end API

/-! ### Basic lemmas about the object model -/

theorem lookupKey_assignKey_self {α : Type} (m : JsObject α) (k : String) (v : α) :
    lookupKey (assignKey m k v) k = some v := by
  induction m with
  | nil => simp [assignKey, lookupKey]
  | cons p rest ih =>
    by_cases h : p.1 = k
    · simp [assignKey, lookupKey, h]
    · simp [assignKey, lookupKey, h, ih]

theorem lookupKey_assignKey_other {α : Type} (m : JsObject α) (k k' : String) (v : α)
    (h : k' ≠ k) : lookupKey (assignKey m k v) k' = lookupKey m k' := by
  have hk : ¬ k = k' := fun e => h e.symm
  induction m with
  | nil => simp [assignKey, lookupKey, hk]
  | cons p rest ih =>
    by_cases hp : p.1 = k
    · simp [assignKey, lookupKey, hp, hk]
    · by_cases hp' : p.1 = k'
      · simp [assignKey, lookupKey, hp, hp', h]
      · simp [assignKey, lookupKey, hp, hp', ih]

theorem lookupKey_removeKey_self {α : Type} (m : JsObject α) (k : String) :
    lookupKey (removeKey m k) k = none := by
  induction m with
  | nil => simp [removeKey, lookupKey]
  | cons p rest ih =>
    by_cases h : p.1 = k
    · simp [removeKey, h, ih]
    · simp [removeKey, lookupKey, h, ih]

theorem lookupKey_extendCfg_notMem {α : Type} (dst src : JsObject α) (k : String)
    (h : ∀ p ∈ src, p.1 ≠ k) : lookupKey (extendCfg dst src) k = lookupKey dst k := by
  induction src generalizing dst with
  | nil => rfl
  | cons p rest ih =>
    have hp : p.1 ≠ k := h p (List.mem_cons_self p rest)
    have hrest : ∀ q ∈ rest, q.1 ≠ k := fun q hq => h q (List.mem_cons_of_mem p hq)
    calc lookupKey (extendCfg (assignKey dst p.1 p.2) rest) k
        = lookupKey (assignKey dst p.1 p.2) k := ih (assignKey dst p.1 p.2) hrest
      _ = lookupKey dst k := lookupKey_assignKey_other dst p.1 k p.2 (Ne.symm hp)

theorem mem_removeKey {α : Type} {p : String × α} {m : JsObject α} {k : String}
    (h : p ∈ removeKey m k) : p ∈ m ∧ p.1 ≠ k := by
  induction m with
  | nil => simp [removeKey] at h
  | cons q rest ih =>
    simp only [removeKey] at h
    by_cases hq : q.1 = k
    · rw [if_pos hq] at h
      obtain ⟨hm, hk⟩ := ih h
      exact ⟨List.mem_cons_of_mem q hm, hk⟩
    · rw [if_neg hq] at h
      rcases List.mem_cons.mp h with he | hm
      · subst he
        exact ⟨List.mem_cons_self p rest, hq⟩
      · obtain ⟨hm2, hk⟩ := ih hm
        exact ⟨List.mem_cons_of_mem q hm2, hk⟩

theorem foldl_removeKey_eq_nil {α : Type} (ks : List String) (m : JsObject α)
    (h : ∀ p ∈ m, p.1 ∈ ks) : List.foldl removeKey m ks = [] := by
  induction ks generalizing m with
  | nil =>
    cases m with
    | nil => rfl
    | cons p rest => exact absurd (h p (List.mem_cons_self p rest)) (by simp)
  | cons k ks ih =>
    have h2 : ∀ p ∈ removeKey m k, p.1 ∈ ks := by
      intro p hp
      obtain ⟨hm, hk⟩ := mem_removeKey hp
      rcases List.mem_cons.mp (h p hm) with he | hin
      · exact absurd he hk
      · exact hin
    exact ih (removeKey m k) h2

/-- The key-less `unset` really does empty the config: folding the delete
callback over the object's own keys leaves no entries, and the operation
returns `true`. -/
theorem unsetAll_clears (cfg : Config) : API.unsetAll cfg = (true, ([] : Config)) := by
  have hnil : List.foldl removeKey cfg (cfg.map Prod.fst) = [] :=
    foldl_removeKey_eq_nil (cfg.map Prod.fst) cfg
      (fun p hp => List.mem_map_of_mem Prod.fst hp)
  simp [API.unsetAll, hnil]

/-! ### Heap layer: JS objects are shared by reference

A client's `!config` property holds a reference to a mutable object.  We
model the store of config objects as a map from addresses to contents;
each client record carries the address of its config object.  `API.get`
with no key returns that reference (index.js line 159), not a copy. -/

/-- An object address in the modelled heap. -/
abbrev Addr := Nat

/-- The heap of config objects: contents at each address. -/
abbrev Heap := Addr → Config

/-- A client as the config operations see it: it owns a reference to its
`!config` object. -/
structure ClientRef where
  cfgAddr : Addr

/-- Overwrite the object at address `a`. -/
def heapWrite (h : Heap) (a : Addr) (cfg : Config) : Heap :=
  fun a2 => if a2 = a then cfg else h a2

namespace API

/-- `API.get(client)` at the heap level: returns the reference stored in
`client['!config']` itself (no copy is made). -/
def getAllRef (_h : Heap) (c : ClientRef) : Addr :=
  c.cfgAddr

/-- `API.get(client, key)` at the heap level. -/
def getOn (h : Heap) (c : ClientRef) (key : String) : JsVal :=
  getKey (h c.cfgAddr) key

/-- `API.set(client, key, value)` at the heap level: mutates the config
object in place. -/
def setOn (h : Heap) (c : ClientRef) (key : String) (value : JsVal) : Heap :=
  heapWrite h c.cfgAddr (assignKey (h c.cfgAddr) key value)

/-- `API.unset(client, key)` at the heap level. -/
def unsetOn (h : Heap) (c : ClientRef) (key : String) : Bool × Heap :=
  (true, heapWrite h c.cfgAddr (removeKey (h c.cfgAddr) key))

end API

/-! ### `createReader` and `API.createClient` -/

/-- A completion-timeout value handed to `App._executeContext.timeout`:
either a finite number of milliseconds or JS `Infinity`. -/
inductive JsNum where
  | finite (ms : Nat)
  | infinity
deriving DecidableEq, Repr

/-- The result the `ajax` middleware hands to the reader's callback:
either a transport error or a response with an HTTP status and a body. -/
inductive AjaxResult where
  | error (e : JsError)
  | response (status : Nat) (body : String)
deriving DecidableEq, Repr

/-- The success payload a facade operation passes to `done`. -/
inductive Payload where
  | msg (s : String)
  | tokens (t : Config)
deriving DecidableEq, Repr

/-- One invocation of a completion handle `done(err, value)`. -/
structure DoneCall where
  err : Option JsError
  val : Option Payload
deriving DecidableEq, Repr

/-- The file reader built by `createReader` (index.js lines 27-53): trigger
an `ajax` request for `url`; reject on transport error; reject with
`Received status code <status> loading <url>` when `Math.floor(status / 100)`
is not 2; otherwise resolve with the response text. -/
def readerFetch (url : String) (ajax : AjaxResult) : Except JsError String :=
  match ajax with
  | .error e => .error e
  | .response status body =>
    if status / 100 ≠ 2 then
      .error { message := "Received status code " ++ toString status ++ " loading " ++ url }
    else
      .ok body

/-- Whether `_.isString` holds of a value. -/
def isString : JsVal → Bool
  | .str _ => true
  | _ => false

/-- JS string coercion, used where the source concatenates a value into a
message (only ever reached on strings here). -/
def jsToString : JsVal → String
  | .str s => s
  | .num n => toString n
  | .undefined => "undefined"
  | .fn => "function"

/-- The success message `createClient` passes to `done` (index.js
lines 102-106). -/
def successMsg (name : JsVal) : String :=
  "Create a new code cell and type \x27" ++ jsToString name ++ ".\x27 to explore this API."

/-- Everything observable about one `API.createClient` run. -/
structure CCOutcome where
  /-- The error thrown synchronously out of the facade, if any. -/
  thrown : Option JsError
  /-- The value passed to `App._executeContext.timeout`, if reached. -/
  timeoutSet : Option JsNum
  /-- Whether the `ajax` middleware was triggered (network I/O). -/
  ajaxCalled : Bool
  /-- Whether a completion handle was obtained via `async()`. -/
  asyncObtained : Bool
  /-- The invocations of the completion handle, in order. -/
  doneCalls : List DoneCall
  /-- The client installed into the sandbox global scope, if any. -/
  installed : Option (String × String)
deriving DecidableEq, Repr

/-- `API.createClient(name, url, config, done)` (index.js lines 69-108).
Throws when `name` or `url` is not a string; otherwise uncaps the
execution timeout, defaults `done` via `async()` when absent, and loads
the document through the reader.  The promise resolution generates the
client (`clientGenerator`, modelled by the parameter `gen` since that
module is outside this file) and installs it by `fromPath` before calling
`done(null, message)`; a generation error is caught and passed to `done`;
a load rejection reaches `done` as the rejection handler.  Parsing by the
external `raml-parser` is modelled by the parameter `parse`. -/
def createClient (name url : JsVal) (doneSupplied : Bool) (ajax : AjaxResult)
    (parse : String → Except JsError String)
    (gen : String → Except JsError String) : CCOutcome :=
  if isString name = false then
    { thrown := some { message := "Provide a name for the generated client" },
      timeoutSet := none, ajaxCalled := false, asyncObtained := false,
      doneCalls := [], installed := none }
  else if isString url = false then
    { thrown := some { message := "Provide a URL for the " ++ jsToString name ++ " RAML document" },
      timeoutSet := none, ajaxCalled := false, asyncObtained := false,
      doneCalls := [], installed := none }
  else
    match readerFetch (jsToString url) ajax with
    | .error e =>
      { thrown := none, timeoutSet := some .infinity, ajaxCalled := true,
        asyncObtained := !doneSupplied,
        doneCalls := [{ err := some e, val := none }], installed := none }
    | .ok body =>
      match parse body with
      | .error e =>
        { thrown := none, timeoutSet := some .infinity, ajaxCalled := true,
          asyncObtained := !doneSupplied,
          doneCalls := [{ err := some e, val := none }], installed := none }
      | .ok data =>
        match gen data with
        | .error e =>
          { thrown := none, timeoutSet := some .infinity, ajaxCalled := true,
            asyncObtained := !doneSupplied,
            doneCalls := [{ err := some e, val := none }], installed := none }
        | .ok client =>
          { thrown := none, timeoutSet := some .infinity, ajaxCalled := true,
            asyncObtained := !doneSupplied,
            doneCalls := [{ err := none, val := some (.msg (successMsg name)) }],
            installed := some (jsToString name, client) }

/-! ### `API.authenticate` -/

/-- A security scheme, as far as the persistence callback reads it: it has
a `type` tag (`scheme.type`, index.js line 231). -/
structure SecurityScheme where
  type : String
deriving DecidableEq, Repr

/-- The client's `authentication` map: scheme type tag ↦ credential bundle. -/
abbrev AuthMap := JsObject Config

/-- The outcome handed to `cb` by the external `./authenticate` module.
Modelled from the spec: the Authenticator negotiates credentials for the
declared schemes and invokes the continuation exactly once, with either
an error or `(scheme, options, tokens)`; its internals are outside this
file, so its single outcome is a parameter of `API.authenticate`. -/
inductive AuthResult where
  | failure (e : JsError)
  | success (scheme : SecurityScheme) (options : Config) (tokens : Config)
deriving DecidableEq, Repr

/-- Everything observable about one `API.authenticate` run. -/
structure AuthOutcome where
  /-- The value passed to `App._executeContext.timeout`. -/
  timeoutSet : Option JsNum
  /-- Whether a completion handle was obtained via `async()`. -/
  asyncObtained : Bool
  /-- The invocations of the completion handle, in order. -/
  doneCalls : List DoneCall
  /-- The client's `authentication` map after the call. -/
  authentication : AuthMap
deriving DecidableEq, Repr

namespace API

/-- `API.authenticate(client, method, options, done)` (index.js
lines 209-236): set a ten-minute timeout, default `done` via `async()`
when absent, and hand the client's security declarations to the external
`./authenticate` module with the continuation `cb` (lines 226-233).  On
error, `cb` forwards it to `done`; on success it stores
`_.extend(options, tokens)` into `clientOption.authentication[scheme.type]`
and calls `done(null, tokens)`.  The external module's single outcome is
the parameter `result`. -/
def authenticate (auth : AuthMap) (doneSupplied : Bool) (result : AuthResult) :
    AuthOutcome :=
  match result with
  | .failure e =>
    { timeoutSet := some (.finite (10 * 60 * 1000)), asyncObtained := !doneSupplied,
      doneCalls := [{ err := some e, val := none }], authentication := auth }
  | .success scheme options tokens =>
    { timeoutSet := some (.finite (10 * 60 * 1000)), asyncObtained := !doneSupplied,
      doneCalls := [{ err := none, val := some (.tokens tokens) }],
      authentication := assignKey auth scheme.type (extendCfg options tokens) }

end API

/-- Trivial parse environment for witnesses: the parser accepts the body. -/
def idParse : String → Except JsError String :=
  fun s => .ok s

/-- Trivial generator environment for witnesses: generation succeeds. -/
def okGen : String → Except JsError String :=
  fun s => .ok s

/-! ### Claims about the config operations -/

/-- C2: for every client, string key and value, after `set(c, k, v)` a
`get(c, k)` returns exactly `v`, and after a subsequent `unset(c, k)` a
`get(c, k)` returns `undefined`. -/
theorem c2_set_get_unset_roundtrip (h : Heap) (c : ClientRef) (k : String) (v : JsVal) :
    API.getOn (API.setOn h c k v) c k = v
    ∧ API.getOn (API.unsetOn (API.setOn h c k v) c k).2 c k = JsVal.undefined := by
  constructor
  · simp [API.getOn, API.setOn, heapWrite, getKey, lookupKey_assignKey_self]
  · simp [API.getOn, API.setOn, API.unsetOn, heapWrite, getKey, lookupKey_removeKey_self]

/-- C4: the key-omitted forms — `set(c, {a:1, b:2})` merges both keys into
the existing config map and preserves keys not mentioned; `unset(c)` with
no key removes every key (returning `true`); `get(c)` with no key returns
the full config map, empty after such an unset. -/
theorem c4_bulk_config_ops (cfg : Config) (k : String) (hka : k ≠ "a") (hkb : k ≠ "b") :
    API.get (API.setBulk cfg [("a", JsVal.num 1), ("b", JsVal.num 2)]) "a" = JsVal.num 1
    ∧ API.get (API.setBulk cfg [("a", JsVal.num 1), ("b", JsVal.num 2)]) "b" = JsVal.num 2
    ∧ API.get (API.setBulk cfg [("a", JsVal.num 1), ("b", JsVal.num 2)]) k = API.get cfg k
    ∧ API.unsetAll cfg = (true, ([] : Config))
    ∧ API.getAll (API.unsetAll cfg).2 = ([] : Config) := by
  have hb : API.setBulk cfg [("a", JsVal.num 1), ("b", JsVal.num 2)]
      = assignKey (assignKey cfg "a" (JsVal.num 1)) "b" (JsVal.num 2) := rfl
  refine ⟨?_, ?_, ?_, unsetAll_clears cfg, by rw [unsetAll_clears cfg]; rfl⟩
  · rw [hb]
    simp [API.get, getKey, lookupKey_assignKey_other _ "b" "a" _ (by decide),
      lookupKey_assignKey_self]
  · rw [hb]
    simp [API.get, getKey, lookupKey_assignKey_self]
  · rw [hb]
    simp [API.get, getKey, lookupKey_assignKey_other _ "b" k _ hkb,
      lookupKey_assignKey_other _ "a" k _ hka]

/-- C4 witness: the bulk operations evaluated on the concrete config
`{c: "z"}`. -/
theorem c4_bulk_config_ops_witness :
    API.get (API.setBulk [("c", JsVal.str "z")] [("a", JsVal.num 1), ("b", JsVal.num 2)]) "a"
      = JsVal.num 1
    ∧ API.get (API.setBulk [("c", JsVal.str "z")] [("a", JsVal.num 1), ("b", JsVal.num 2)]) "b"
      = JsVal.num 2
    ∧ API.get (API.setBulk [("c", JsVal.str "z")] [("a", JsVal.num 1), ("b", JsVal.num 2)]) "c"
      = API.get [("c", JsVal.str "z")] "c"
    ∧ API.unsetAll [("c", JsVal.str "z")] = (true, ([] : Config))
    ∧ API.getAll (API.unsetAll [("c", JsVal.str "z")]).2 = ([] : Config) :=
  c4_bulk_config_ops [("c", JsVal.str "z")] "c" (by decide) (by decide)

/-- C7: counterexample to the claim as stated — on a missing key, `get`
does return `undefined`, but `unset` returns `true`, not `false`: JS
`delete` on an absent property succeeds and evaluates to `true`. -/
theorem c7_counterexample :
    API.get ([] : Config) "k" = JsVal.undefined
    ∧ (API.unset ([] : Config) "k").1 = true
    ∧ ¬ (API.unset ([] : Config) "k").1 = false := by
  decide

/-- C7 (amended): for every config and key not present, `get` returns
`undefined` and `unset` returns `true`; neither raises any error (both
are total operations). -/
theorem c7_missing_key_behavior (cfg : Config) (k : String)
    (h : lookupKey cfg k = none) :
    API.get cfg k = JsVal.undefined ∧ (API.unset cfg k).1 = true := by
  constructor
  · simp [API.get, getKey, h]
  · rfl

/-- C7 witness: the amended behavior evaluated on the empty config. -/
theorem c7_missing_key_behavior_witness :
    API.get ([] : Config) "missing" = JsVal.undefined
    ∧ (API.unset ([] : Config) "missing").1 = true :=
  c7_missing_key_behavior [] "missing" (by decide)

/-- C10: `get(client)` with no key returns the client's live config
object by reference — the address of the very object the client uses, so
a later `set`/`unset` on the client is observable through the returned
reference, and writing through the returned reference changes what the
client's keyed `get` sees. -/
theorem c10_get_returns_live_reference (h : Heap) (c : ClientRef) (k : String)
    (v : JsVal) (cfg2 : Config) :
    API.getAllRef h c = c.cfgAddr
    ∧ API.setOn h c k v (API.getAllRef h c) = assignKey (h c.cfgAddr) k v
    ∧ API.get (API.setOn h c k v (API.getAllRef h c)) k = v
    ∧ API.get ((API.unsetOn h c k).2 (API.getAllRef h c)) k = JsVal.undefined
    ∧ API.getOn (heapWrite h (API.getAllRef h c) cfg2) c k = API.get cfg2 k := by
  refine ⟨rfl, ?_, ?_, ?_, ?_⟩
  · simp [API.setOn, API.getAllRef, heapWrite]
  · simp [API.setOn, API.getAllRef, heapWrite, API.get, getKey, lookupKey_assignKey_self]
  · simp [API.unsetOn, API.getAllRef, heapWrite, API.get, getKey, lookupKey_removeKey_self]
  · simp [API.getOn, API.getAllRef, heapWrite, API.get]

/-! ### Claims about `createClient` -/

/-- On the validated path (both arguments strings), `createClient` throws
nothing, uncaps the timeout, obtains a handle via `async()` exactly when
none was supplied, and calls the completion handle exactly once with
either an error or a success payload. -/
theorem createClient_valid_shape (name url : String) (d : Bool) (ajax : AjaxResult)
    (parse gen : String → Except JsError String) :
    ∃ c : DoneCall,
      (createClient (.str name) (.str url) d ajax parse gen).doneCalls = [c]
      ∧ ((c.err = none ∧ c.val ≠ none) ∨ (c.err ≠ none ∧ c.val = none))
      ∧ (createClient (.str name) (.str url) d ajax parse gen).asyncObtained = !d
      ∧ (createClient (.str name) (.str url) d ajax parse gen).timeoutSet
          = some JsNum.infinity
      ∧ (createClient (.str name) (.str url) d ajax parse gen).thrown = none := by
  rcases hr : readerFetch url ajax with e | body
  · exact ⟨{ err := some e, val := none },
      by simp [createClient, isString, jsToString, hr], Or.inr (by simp),
      by simp [createClient, isString, jsToString, hr],
      by simp [createClient, isString, jsToString, hr],
      by simp [createClient, isString, jsToString, hr]⟩
  · rcases hp : parse body with e | data
    · exact ⟨{ err := some e, val := none },
        by simp [createClient, isString, jsToString, hr, hp], Or.inr (by simp),
        by simp [createClient, isString, jsToString, hr, hp],
        by simp [createClient, isString, jsToString, hr, hp],
        by simp [createClient, isString, jsToString, hr, hp]⟩
    · rcases hg : gen data with e | client
      · exact ⟨{ err := some e, val := none },
          by simp [createClient, isString, jsToString, hr, hp, hg], Or.inr (by simp),
          by simp [createClient, isString, jsToString, hr, hp, hg],
          by simp [createClient, isString, jsToString, hr, hp, hg],
          by simp [createClient, isString, jsToString, hr, hp, hg]⟩
      · exact ⟨{ err := none, val := some (.msg (successMsg (.str name))) },
          by simp [createClient, isString, jsToString, hr, hp, hg, successMsg], Or.inl (by simp),
          by simp [createClient, isString, jsToString, hr, hp, hg],
          by simp [createClient, isString, jsToString, hr, hp, hg],
          by simp [createClient, isString, jsToString, hr, hp, hg]⟩

/-- C1: counterexample to the claim as stated — `createClient('x', 123, done)`
never invokes `done` at all: the non-string URL makes the facade throw
synchronously, so the completion callback sees no error (and no network
I/O happens). -/
theorem c1_counterexample :
    (createClient (.str "x") (.num 123) true (.response 200 "") idParse okGen).doneCalls = []
    ∧ (createClient (.str "x") (.num 123) true (.response 200 "") idParse okGen).thrown
        = some { message := "Provide a URL for the x RAML document" }
    ∧ (createClient (.str "x") (.num 123) true (.response 200 "") idParse okGen).ajaxCalled
        = false := by
  decide

/-- C1 (amended): for every `createClient` call whose `url` is not a
string, the facade throws a synchronous invalid-argument error naming the
client, performs no network I/O (the reader is never invoked) and never
invokes the completion callback. -/
theorem c1_invalid_url_throws (name url : JsVal) (d : Bool) (ajax : AjaxResult)
    (parse gen : String → Except JsError String)
    (hn : isString name = true) (hu : isString url = false) :
    (createClient name url d ajax parse gen).thrown
      = some { message := "Provide a URL for the " ++ jsToString name ++ " RAML document" }
    ∧ (createClient name url d ajax parse gen).ajaxCalled = false
    ∧ (createClient name url d ajax parse gen).doneCalls = []
    ∧ (createClient name url d ajax parse gen).installed = none := by
  simp [createClient, hn, hu]

/-- C1 witness: the amended behavior evaluated at name "x" and URL 123. -/
theorem c1_invalid_url_throws_witness :
    (createClient (.str "y") (.num 7) false (.response 200 "") idParse okGen).thrown
      = some { message := "Provide a URL for the y RAML document" }
    ∧ (createClient (.str "y") (.num 7) false (.response 200 "") idParse okGen).ajaxCalled = false
    ∧ (createClient (.str "y") (.num 7) false (.response 200 "") idParse okGen).doneCalls = []
    ∧ (createClient (.str "y") (.num 7) false (.response 200 "") idParse okGen).installed
      = none :=
  c1_invalid_url_throws (.str "y") (.num 7) false (.response 200 "") idParse okGen rfl rfl

/-- C3: a description fetch answered with a non-2xx HTTP status makes the
load reject with an error whose message names both the requested URL and
the status code; the rejection is delivered through the completion
callback (exactly one call, carrying the error) and no client is
installed into the sandbox global scope. -/
theorem c3_non2xx_rejects (name url body : String) (d : Bool) (status : Nat)
    (parse gen : String → Except JsError String) (hs : status / 100 ≠ 2) :
    (createClient (.str name) (.str url) d (.response status body) parse gen).doneCalls
      = [{ err := some { message :=
             "Received status code " ++ toString status ++ " loading " ++ url },
           val := none }]
    ∧ (createClient (.str name) (.str url) d (.response status body) parse gen).installed
      = none := by
  simp [createClient, readerFetch, isString, jsToString, hs]

/-- C3 witness: the 404 case from the spec, at a concrete URL. -/
theorem c3_non2xx_rejects_witness :
    (createClient (.str "x") (.str "http://e/a.raml") true (.response 404 "nf") idParse
        okGen).doneCalls
      = [{ err := some { message := "Received status code 404 loading http://e/a.raml" },
           val := none }]
    ∧ (createClient (.str "x") (.str "http://e/a.raml") true (.response 404 "nf") idParse
        okGen).installed = none :=
  c3_non2xx_rejects "x" "http://e/a.raml" "nf" true 404 idParse okGen (by decide)

/-- C5: when the description loads and parses but client-graph generation
throws, the error is reported through the completion callback (exactly
one call) and no client — partial or complete — is installed under the
requested alias. -/
theorem c5_generation_error_aborts (name url body data : String) (d : Bool)
    (status : Nat) (parse gen : String → Except JsError String) (e : JsError)
    (hs : status / 100 = 2) (hp : parse body = .ok data) (hg : gen data = .error e) :
    (createClient (.str name) (.str url) d (.response status body) parse gen).doneCalls
      = [{ err := some e, val := none }]
    ∧ (createClient (.str name) (.str url) d (.response status body) parse gen).installed
      = none := by
  simp [createClient, readerFetch, isString, jsToString, hs, hp, hg]

/-- C5 witness: a generator that always throws, on a successfully fetched
and parsed document. -/
theorem c5_generation_error_aborts_witness :
    (createClient (.str "x") (.str "u") true (.response 200 "b") idParse
        (fun _ => .error { message := "collision" })).doneCalls
      = [{ err := some { message := "collision" }, val := none }]
    ∧ (createClient (.str "x") (.str "u") true (.response 200 "b") idParse
        (fun _ => .error { message := "collision" })).installed = none :=
  c5_generation_error_aborts "x" "u" "b" "b" true 200 idParse
    (fun _ => .error { message := "collision" }) { message := "collision" }
    (by decide) rfl rfl

/-! ### Claims about `authenticate` and the completion-handle discipline -/

/-- C6: counterexample to the claim as stated — with a bundle already
stored under the scheme's type key (`{old: 1}`), a successful
authentication with tokens `{t: 2}` leaves `authentication['oauth2']`
equal to `_.extend(options, tokens) = {t: 2}`: the previously stored
bundle is replaced, not merged into (`old` is gone). -/
theorem c6_counterexample :
    lookupKey (API.authenticate [("oauth2", [("old", JsVal.num 1)])] true
        (.success { type := "oauth2" } [] [("t", JsVal.num 2)])).authentication "oauth2"
      = some [("t", JsVal.num 2)]
    ∧ getKey ((lookupKey (API.authenticate [("oauth2", [("old", JsVal.num 1)])] true
        (.success { type := "oauth2" } [] [("t", JsVal.num 2)])).authentication
        "oauth2").getD []) "old" = JsVal.undefined := by
  decide

/-- C6 (amended): on a successful `authenticate`, the bundle
`_.extend(options, tokens)` is stored under the negotiated scheme's type
key, replacing whatever bundle that key held before; entries of the
authentication map under other type keys are preserved; and the `tokens`
object is passed to the completion callback as the success payload. -/
theorem c6_auth_success_replaces (auth : AuthMap) (d : Bool)
    (scheme : SecurityScheme) (options tokens : Config) (t : String)
    (ht : t ≠ scheme.type) :
    (API.authenticate auth d (.success scheme options tokens)).authentication
      = assignKey auth scheme.type (extendCfg options tokens)
    ∧ lookupKey (API.authenticate auth d (.success scheme options tokens)).authentication
        scheme.type = some (extendCfg options tokens)
    ∧ lookupKey (API.authenticate auth d (.success scheme options tokens)).authentication t
      = lookupKey auth t
    ∧ (API.authenticate auth d (.success scheme options tokens)).doneCalls
      = [{ err := none, val := some (.tokens tokens) }] := by
  refine ⟨rfl, ?_, ?_, rfl⟩
  · exact lookupKey_assignKey_self auth scheme.type (extendCfg options tokens)
  · exact lookupKey_assignKey_other auth scheme.type t (extendCfg options tokens) ht

/-- C6 witness: the amended behavior on a concrete authentication map
holding a bundle under a different scheme type. -/
theorem c6_auth_success_replaces_witness :
    lookupKey (API.authenticate [("basic", [("u", JsVal.str "me")])] false
        (.success { type := "oauth2" } [("opt", JsVal.num 3)]
          [("tok", JsVal.str "T")])).authentication "basic"
      = lookupKey [("basic", [("u", JsVal.str "me")])] "basic"
    ∧ (API.authenticate [("basic", [("u", JsVal.str "me")])] false
        (.success { type := "oauth2" } [("opt", JsVal.num 3)]
          [("tok", JsVal.str "T")])).doneCalls
      = [{ err := none, val := some (.tokens [("tok", JsVal.str "T")]) }] :=
  ⟨(c6_auth_success_replaces [("basic", [("u", JsVal.str "me")])] false
      { type := "oauth2" } [("opt", JsVal.num 3)] [("tok", JsVal.str "T")] "basic"
      (by decide)).2.2.1,
   (c6_auth_success_replaces [("basic", [("u", JsVal.str "me")])] false
      { type := "oauth2" } [("opt", JsVal.num 3)] [("tok", JsVal.str "T")] "basic"
      (by decide)).2.2.2⟩

/-- C8: counterexample to the claim as stated — a `createClient` call
failing argument validation throws synchronously and invokes the
completion handle zero times, not exactly once. -/
theorem c8_counterexample :
    (createClient (.num 1) (.str "u") true (.response 200 "") idParse okGen).doneCalls.length
      = 0
    ∧ (createClient (.num 1) (.str "u") true (.response 200 "") idParse
        okGen).thrown.isSome = true := by
  decide

/-- C8 (amended): on every execution path that passes `createClient`'s
synchronous argument validation, the completion handle is invoked exactly
once, with either an error or a success payload and never both, and a
handle is obtained via `async()` exactly when none was supplied; the
validation-failure path instead throws and invokes no handle; and
`authenticate` (whose external negotiation module, modelled from the
spec, calls its continuation exactly once) likewise invokes its handle
exactly once, exclusively with an error or a payload. -/
theorem c8_done_exactly_once_validated (name url : String) (nv uv : JsVal)
    (d1 d2 d3 : Bool) (ajax : AjaxResult)
    (parse gen : String → Except JsError String)
    (auth : AuthMap) (result : AuthResult)
    (hbad : isString nv = false ∨ isString uv = false) :
    ((createClient (.str name) (.str url) d1 ajax parse gen).doneCalls.length = 1
      ∧ (∀ call ∈ (createClient (.str name) (.str url) d1 ajax parse gen).doneCalls,
          (call.err = none ∧ call.val ≠ none) ∨ (call.err ≠ none ∧ call.val = none))
      ∧ (createClient (.str name) (.str url) d1 ajax parse gen).asyncObtained = !d1)
    ∧ ((createClient nv uv d2 ajax parse gen).doneCalls = []
      ∧ (createClient nv uv d2 ajax parse gen).thrown.isSome = true)
    ∧ ((API.authenticate auth d3 result).doneCalls.length = 1
      ∧ (∀ call ∈ (API.authenticate auth d3 result).doneCalls,
          (call.err = none ∧ call.val ≠ none) ∨ (call.err ≠ none ∧ call.val = none))
      ∧ (API.authenticate auth d3 result).asyncObtained = !d3) := by
  refine ⟨?_, ?_, ?_⟩
  · obtain ⟨c, hc, hcp, ha, _, _⟩ := createClient_valid_shape name url d1 ajax parse gen
    refine ⟨by rw [hc]; simp, ?_, ha⟩
    intro call hcall
    rw [hc] at hcall
    simp at hcall
    subst hcall
    exact hcp
  · cases hnv : isString nv with
    | false => simp [createClient, hnv]
    | true =>
      have hu : isString uv = false := by
        rcases hbad with hx | hx
        · rw [hnv] at hx; simp at hx
        · exact hx
      simp [createClient, hnv, hu]
  · cases result with
    | failure e =>
      refine ⟨rfl, ?_, rfl⟩
      intro call hcall
      simp [API.authenticate] at hcall
      subst hcall
      exact Or.inr (by simp)
    | success scheme options tokens =>
      refine ⟨rfl, ?_, rfl⟩
      intro call hcall
      simp [API.authenticate] at hcall
      subst hcall
      exact Or.inl (by simp)

/-- C8 witness: the amended discipline evaluated on a validated call and
on an invalid-name call. -/
theorem c8_done_exactly_once_validated_witness :
    (createClient (.str "n") (.str "u") true (.response 200 "") idParse
        okGen).doneCalls.length = 1
    ∧ (createClient (.num 5) (.str "u") true (.response 200 "") idParse okGen).doneCalls
      = [] :=
  ⟨(c8_done_exactly_once_validated "n" "u" (.num 5) (.str "u") true true true
      (.response 200 "") idParse okGen [] (.failure { message := "e" }) (Or.inl rfl)).1.1,
   (c8_done_exactly_once_validated "n" "u" (.num 5) (.str "u") true true true
      (.response 200 "") idParse okGen [] (.failure { message := "e" })
      (Or.inl rfl)).2.1.1⟩

/-- C9: counterexample to the claim as stated — an invocation of
`createClient` that fails argument validation throws before the
`timeout(Infinity)` line is reached, so no timeout is set on that
invocation. -/
theorem c9_counterexample :
    (createClient (.num 2) (.str "u") false (.response 200 "") idParse okGen).timeoutSet
      = none := by
  decide

/-- C9 (amended): every `createClient` invocation that passes argument
validation sets the sandbox execution timeout to Infinity (no cap), and
every `authenticate` invocation sets a bounded timeout of
10 * 60 * 1000 ms, that is ten minutes. -/
theorem c9_timeout_policy (name url : String) (d1 d2 : Bool) (ajax : AjaxResult)
    (parse gen : String → Except JsError String) (auth : AuthMap)
    (result : AuthResult) :
    (createClient (.str name) (.str url) d1 ajax parse gen).timeoutSet
      = some JsNum.infinity
    ∧ (API.authenticate auth d2 result).timeoutSet
      = some (JsNum.finite (10 * 60 * 1000))
    ∧ (API.authenticate auth d2 result).timeoutSet = some (JsNum.finite 600000) := by
  obtain ⟨c, _, _, _, ht, _⟩ := createClient_valid_shape name url d1 ajax parse gen
  refine ⟨ht, ?_, ?_⟩ <;> cases result <;> rfl
